import Mathlib

/-
  Verification of the inboxy mailbox triage engine against its
  natural-language specification.

  The definitions below are shallow embeddings of the Python source:
  clean.py (bulk delete / archive by query), src/inboxy/gmail.py
  (listing with cache), src/inboxy/ai.py (classification with
  deterministic fallback), src/inboxy/models.py (data model) and
  src/inboxy/digest.py (digest assembly).  Remote calls are modelled as
  explicit function parameters; an uncaught Python exception is
  modelled as the error branch of an Except value, and a Python
  function that can raise is modelled with an Option or Except result.
-/

set_option maxRecDepth 20000

namespace Inboxy

/- ===================================================================
   Part A.  Bulk mutation (clean.py).

   Source, clean.py:

     def _chunked(iterable, n=500):
         for i in range(0, len(iterable), n):
             yield iterable[i:i+n]

     def delete_by_query(service, query):
         ids = list_message_ids(service, q=query)
         if not ids: return
         confirm = input(...)
         if confirm != "yes":
             print("Aborted."); return
         for batch in _chunked(ids, 500):
             service.users().messages().batchDelete(...).execute()

   The identifier list is passed directly (the listing step is modelled
   separately in Part C); the interactive confirmation is the Boolean
   parameter confirmed; the remote batchDelete endpoint is the
   parameter exec, whose error branch stands for an HttpError raised by
   execute().  The Python function returns None on every path, so the
   returned value is modelled as Option SpecBatchOutcome and is always
   none; an uncaught exception is the Except.error branch.
   =================================================================== -/

/-- Chunk helper with explicit fuel so that it computes structurally;
fuel equal to the list length suffices for any chunk size of at least
one.  Mirrors range(0, len(iterable), n) slicing in _chunked. -/
def chunkedGo (fuel : Nat) (l : List String) (n : Nat) : List (List String) :=
  match fuel, l with
  | _, [] => []
  | 0, _ => []
  | fuel + 1, l => l.take n :: chunkedGo fuel (l.drop n) n

/-- Model of _chunked from clean.py: consecutive slices of size n. -/
def chunked (l : List String) (n : Nat) : List (List String) :=
  chunkedGo l.length l n

/-- Modelled from the spec: the BatchOutcome record of section 3 of the
spec (attempted, succeeded, per-identifier failures).  No such record
type exists anywhere in the source; it is declared here only so that
the claims that speak about a returned outcome can be stated and
compared against what the source actually returns. -/
structure SpecBatchOutcome where
  attempted : Nat
  succeeded : Nat
  failures : List (String × String)
  deriving DecidableEq, Repr

/-- Run the chunk loop of delete_by_query / archive_by_query: one
remote batch call per chunk, in order; the loop body has no exception
handler, so the first failing call aborts the loop and the exception
propagates.  Returns the list of batch calls actually issued together
with normal termination or the propagated exception. -/
def runChunks (exec : List String → Except Unit Unit) :
    List (List String) → List (List String) × Except Unit Unit
  | [] => ([], Except.ok ())
  | c :: rest =>
    match exec c with
    | Except.error e => ([c], Except.error e)
    | Except.ok _ =>
      let r := runChunks exec rest
      (c :: r.1, r.2)

/-- Model of delete_by_query from clean.py, parameterized by the
resolved identifier list and the confirmation answer.  First component:
the batch calls issued to the remote batchDelete endpoint.  Second
component: the observable return, where Except.error is an uncaught
exception and the Option is the Python return value (always None in
the source, hence always none here). -/
def delete_by_query (exec : List String → Except Unit Unit)
    (ids : List String) (confirmed : Bool) :
    List (List String) × Except Unit (Option SpecBatchOutcome) :=
  if ids.isEmpty then ([], Except.ok none)
  else if !confirmed then ([], Except.ok none)
  else
    let r := runChunks exec (chunked ids 500)
    (r.1, r.2.map fun _ => none)

/-- Model of archive_by_query from clean.py: identical loop structure,
issuing one batchModify call per chunk with no exception handler. -/
def archive_by_query (exec : List String → Except Unit Unit)
    (ids : List String) (confirmed : Bool) :
    List (List String) × Except Unit (Option SpecBatchOutcome) :=
  if ids.isEmpty then ([], Except.ok none)
  else if !confirmed then ([], Except.ok none)
  else
    let r := runChunks exec (chunked ids 500)
    (r.1, r.2.map fun _ => none)

/-- A remote endpoint that always succeeds (used to instantiate
hypotheses at concrete inputs). -/
def execOk : List String → Except Unit Unit := fun _ => Except.ok ()

/-- A remote endpoint that always fails (a transport error on every
batch call). -/
def execFail : List String → Except Unit Unit := fun _ => Except.error ()

/- ===================================================================
   Part B.  Listing (clean.py list_message_ids and gmail.py
   get_emails).

   Source, clean.py:

     def list_message_ids(service, q="", label_ids=None, limit=None):
         ids = []
         page_token = None
         while True:
             res = service.users().messages().list(... pageToken=page_token).execute()
             msgs = res.get("messages", [])
             ids.extend(m["id"] for m in msgs)
             if limit and len(ids) >= limit:
                 return ids[:limit]
             page_token = res.get("nextPageToken")
             if not page_token:
                 break
         return ids

   There is no try/except: an HttpError raised by execute() propagates
   to the caller and the locally accumulated ids are discarded.  The
   provider is modelled as the list of successive page responses; the
   page after the last element of that list carries no nextPageToken;
   an element Except.error stands for a transport failure of that
   list call.
   =================================================================== -/

/-- Truthiness test of the Python condition
if limit and len(ids) >= limit: a None limit and a zero limit are both
falsy. -/
def limitReached (limit : Option Nat) (n : Nat) : Bool :=
  match limit with
  | none => false
  | some L => decide (L ≠ 0) && decide (L ≤ n)

/-- The while loop of list_message_ids.  Second component of the
result counts the list calls actually issued (each page is requested
exactly once; there is no retry). -/
def listIdsGo (pages : List (Except Unit (List String)))
    (limit : Option Nat) (acc : List String) (ncalls : Nat) :
    Except Unit (List String) × Nat :=
  match pages with
  | [] => (Except.ok acc, ncalls)
  | p :: rest =>
    match p with
    | Except.error e => (Except.error e, ncalls + 1)
    | Except.ok msgs =>
      let ids := acc ++ msgs
      if limitReached limit ids.length then
        (Except.ok (ids.take (limit.getD 0)), ncalls + 1)
      else listIdsGo rest limit ids (ncalls + 1)

/-- Model of list_message_ids from clean.py: follow the pagination
token until exhausted or the limit is reached; a transport failure on
any page propagates as an exception and discards everything collected
so far. -/
def list_message_ids (pages : List (Except Unit (List String)))
    (limit : Option Nat) : Except Unit (List String) × Nat :=
  listIdsGo pages limit [] 0

/-- Model of get_emails from gmail.py (cache-miss path).  The whole
body sits inside try/except HttpError, and the except branch returns
the empty list, so the caller always receives a normal value: a
transport failure of the single list call is swallowed, never
surfaced.  Per-message get failures are caught individually and the
message is omitted.  listRes is the outcome of the list call, g the
per-identifier get endpoint. -/
def get_emailsE (listRes : Except Unit (List String))
    (g : String → Except Unit String) : Except Unit (List String) :=
  match listRes with
  | Except.error _ => Except.ok []
  | Except.ok ids => Except.ok (ids.filterMap fun i => (g i).toOption)

/-- A per-identifier get endpoint that always fails (used for closed
counterexample statements). -/
def failGet : String → Except Unit String := fun _ => Except.error ()

/- ===================================================================
   Part C.  TTL cache (gmail.py _get_cached_emails / _cache_emails and
   the identical logic in ai.py _get_cached_analyses).

   Source, gmail.py:

     def _get_cached_emails(self, cache_key):
         cache_file = self.cache_dir / f"emails_{cache_key}.json"
         if cache_file.exists():
             age = datetime.now().timestamp() - cache_file.stat().st_mtime
             if age < self.cache_ttl:
                 with open(cache_file) as f:
                     return json.load(f)
         return None

     def _cache_emails(self, cache_key, emails):
         ... json.dump(emails, f)   (overwrites the file; mtime = now)

   The file store is modelled as an association list from key to
   (payload, mtime); timestamps are naturals with now at least mtime in
   every statement of interest.  The freshness test of the source is
   the strict comparison age < ttl; a stale entry is returned as
   absent but never deleted.
   =================================================================== -/

/-- Lookup a cache entry (payload and mtime) by key. -/
def cacheLookup : List (String × String × Nat) → String → Option (String × Nat)
  | [], _ => none
  | (k2, v2, t2) :: rest, k =>
    if k2 = k then some (v2, t2) else cacheLookup rest k

/-- Model of a cache write: overwrite the entry with the same key in
place (file content and mtime replaced), create it otherwise. -/
def cachePut : List (String × String × Nat) → String → String → Nat →
    List (String × String × Nat)
  | [], k, v, t => [(k, v, t)]
  | (k2, v2, t2) :: rest, k, v, t =>
    if k2 = k then (k, v, t) :: rest
    else (k2, v2, t2) :: cachePut rest k v t

/-- Model of a cache read at time now under TTL ttl: absent when no
entry exists, absent when the stored age now - mtime fails the strict
test age < ttl of the source, and the stored payload otherwise.  The
entry itself is never removed. -/
def cacheGet (store : List (String × String × Nat)) (k : String)
    (now ttl : Nat) : Option String :=
  match cacheLookup store k with
  | none => none
  | some (v, mt) => if now - mt < ttl then some v else none

/- ===================================================================
   Part D.  Data model and classifier (models.py and ai.py).
   =================================================================== -/

/-- The EmailCategory enum of models.py: the eight categorization
buckets. -/
inductive EmailCategory
  | ACTION_REQUIRED
  | FYI_REVIEW
  | CALENDAR_EVENT
  | NEWSLETTER
  | PROMOTION
  | SOCIAL
  | AUTO_DELETE
  | IMPORTANT
  deriving DecidableEq, Repr

/-- Python EmailCategory(value): value lookup in the enum, raising
ValueError (modelled as none) on any string outside the eight
member values. -/
def EmailCategory.ofString : String → Option EmailCategory
  | "action_required" => some EmailCategory.ACTION_REQUIRED
  | "fyi_review" => some EmailCategory.FYI_REVIEW
  | "calendar_event" => some EmailCategory.CALENDAR_EVENT
  | "newsletter" => some EmailCategory.NEWSLETTER
  | "promotion" => some EmailCategory.PROMOTION
  | "social" => some EmailCategory.SOCIAL
  | "auto_delete" => some EmailCategory.AUTO_DELETE
  | "important" => some EmailCategory.IMPORTANT
  | _ => none

/-- The Priority enum of models.py (URGENT=5, HIGH=4, MEDIUM=3, LOW=2,
NONE=1). -/
inductive Priority
  | URGENT
  | HIGH
  | MEDIUM
  | LOW
  | NONE
  deriving DecidableEq, Repr

/-- The numeric value of a Priority member. -/
def Priority.value : Priority → Nat
  | Priority.URGENT => 5
  | Priority.HIGH => 4
  | Priority.MEDIUM => 3
  | Priority.LOW => 2
  | Priority.NONE => 1

/-- Python Priority(n): value lookup in the enum, ValueError (none)
outside 1..5. -/
def Priority.ofInt : Int → Option Priority
  | (5 : Int) => some Priority.URGENT
  | (4 : Int) => some Priority.HIGH
  | (3 : Int) => some Priority.MEDIUM
  | (2 : Int) => some Priority.LOW
  | (1 : Int) => some Priority.NONE
  | _ => none

/-- CalendarEvent model of models.py. -/
structure CalendarEvent where
  title : String
  date : Option String
  time : Option String
  location : Option String
  deriving DecidableEq, Repr

/-- EmailAnalysisResponse of models.py, as raw provider output: the
category is an unvalidated string and the priority an unvalidated
integer; pydantic field validation (ge=1, le=5 on priority) is the
separate function responseValid below. -/
structure EmailAnalysisResponse where
  category : String
  priority : Int
  summary : String
  action_needed : Option String := none
  suggested_response : Option String := none
  calendar_event : Option CalendarEvent := none
  key_points : List String := []
  sentiment : String := "neutral"
  deriving DecidableEq, Repr

/-- The pydantic field constraints of EmailAnalysisResponse: priority
must satisfy ge=1 and le=5; the category field is a plain str and is
not constrained here. -/
def responseValid (r : EmailAnalysisResponse) : Bool :=
  decide ((1 : Int) ≤ r.priority) && decide (r.priority ≤ (5 : Int))

/-- The structured-output call of ai.py (instructor over the chat
completion): a transport failure, timeout or malformed response is the
error branch of the provider argument, and a response violating the
pydantic schema raises a validation error, also an exception. -/
def aiCreate (provider : Except Unit EmailAnalysisResponse) :
    Except Unit EmailAnalysisResponse :=
  match provider with
  | Except.error e => Except.error e
  | Except.ok r => if responseValid r then Except.ok r else Except.error ()

/-- Header lookup with default, modelling headers.get(name, default)
on the lowercased header dict. -/
def hget (headers : List (String × String)) (k d : String) : String :=
  match headers.lookup k with
  | some v => v
  | none => d

/-- The EmailAnalysis class of models.py (plain value object). -/
structure EmailAnalysis where
  message_id : String
  subject : String
  sender : String
  date : String
  category : EmailCategory
  priority : Priority
  summary : String
  action_needed : Option String
  suggested_response : Option String
  calendar_event : Option CalendarEvent
  key_points : List String
  sentiment : String
  deriving DecidableEq, Repr

/-- The EmailAnalysis constructor of models.py.  It calls
EmailCategory(response.category) and Priority(response.priority),
either of which raises ValueError on out-of-domain input; that raise
is modelled as none. -/
def mkEmailAnalysis (message_id : String) (headers : List (String × String))
    (r : EmailAnalysisResponse) : Option EmailAnalysis :=
  match EmailCategory.ofString r.category, Priority.ofInt r.priority with
  | some cat, some pr =>
    some
      { message_id := message_id
        subject := hget headers "subject" "No subject"
        sender := hget headers "from" "Unknown"
        date := hget headers "date" "Unknown"
        category := cat
        priority := pr
        summary := r.summary
        action_needed := r.action_needed
        suggested_response := r.suggested_response
        calendar_event := r.calendar_event
        key_points := r.key_points
        sentiment := r.sentiment }
  | _, _ => none

/-- The literal response built in the except branch of analyze_email:
EmailAnalysisResponse(category="fyi_review", priority=1,
summary="Unable to analyze email", key_points=[]), with the remaining
fields at their declared defaults. -/
def fallbackResponse : EmailAnalysisResponse :=
  { category := "fyi_review"
    priority := 1
    summary := "Unable to analyze email"
    key_points := [] }

/-- The analysis the except branch of analyze_email produces: the
EmailAnalysis constructor applied to fallbackResponse (see
mkEmailAnalysis_fallback below for the certification that the
constructor succeeds on it and yields exactly this record). -/
def fallbackAnalysis (message_id : String)
    (headers : List (String × String)) : EmailAnalysis :=
  { message_id := message_id
    subject := hget headers "subject" "No subject"
    sender := hget headers "from" "Unknown"
    date := hget headers "date" "Unknown"
    category := EmailCategory.FYI_REVIEW
    priority := Priority.NONE
    summary := "Unable to analyze email"
    action_needed := none
    suggested_response := none
    calendar_event := none
    key_points := []
    sentiment := "neutral" }

/-- Model of analyze_email from ai.py.  The try block covers both the
structured scoring call and the EmailAnalysis construction from its
response; every exception from either is caught and converted to the
fallback analysis, so the caller always receives a plain analysis and
never an error. -/
def analyze_email (message_id : String) (headers : List (String × String))
    (provider : Except Unit EmailAnalysisResponse) : EmailAnalysis :=
  match aiCreate provider with
  | Except.error _ => fallbackAnalysis message_id headers
  | Except.ok r =>
    match mkEmailAnalysis message_id headers r with
    | some a => a
    | none => fallbackAnalysis message_id headers

/- ===================================================================
   Part E.  Digest assembly (digest.py _prepare_data).
   =================================================================== -/

/-- Stable insertion used to model Python sorted(key=..., reverse=True):
the inserted element comes from earlier in the original list than
everything already inserted, so it is placed before the first element
whose key is less than or equal to its own. -/
def insertDescBy (key : α → Nat) (a : α) : List α → List α
  | [] => [a]
  | b :: l => if key b ≤ key a then a :: b :: l else b :: insertDescBy key a l

/-- Model of Python sorted(l, key=key, reverse=True).  Python sorting
is stable and its result is uniquely determined by being sorted
descending on the key with ties in original order; this stable
insertion sort has exactly those two properties (proved below), hence
coincides with it. -/
def sortDescBy (key : α → Nat) : List α → List α
  | [] => []
  | a :: l => insertDescBy key a (sortDescBy key l)

/-- The urgency test of _prepare_data:
a.priority.value >= 4 or a.category == EmailCategory.ACTION_REQUIRED. -/
def isUrgent (a : EmailAnalysis) : Bool :=
  decide (4 ≤ a.priority.value) || decide (a.category = EmailCategory.ACTION_REQUIRED)

/-- The urgent-item loop of _prepare_data: walk the sorted list,
append each matching analysis, and break as soon as five are
collected. -/
def urgentLoop : List EmailAnalysis → List EmailAnalysis → List EmailAnalysis
  | [], acc => acc
  | a :: rest, acc =>
    if isUrgent a then
      let acc2 := acc ++ [a]
      if 5 ≤ acc2.length then acc2 else urgentLoop rest acc2
    else urgentLoop rest acc

/-- The urgent_items selection of _prepare_data, keeping the analyses
themselves (the source projects each one to a presentation dict
immediately before appending; that per-item projection preserves count
and order and is dropped here). -/
def urgent_items (analyses : List EmailAnalysis) : List EmailAnalysis :=
  urgentLoop (sortDescBy (fun a => a.priority.value) analyses) []

/-- The deletable test of _prepare_data: category in NEWSLETTER,
PROMOTION, SOCIAL, AUTO_DELETE. -/
def isDeletable (a : EmailAnalysis) : Bool :=
  decide (a.category = EmailCategory.NEWSLETTER)
    || decide (a.category = EmailCategory.PROMOTION)
    || decide (a.category = EmailCategory.SOCIAL)
    || decide (a.category = EmailCategory.AUTO_DELETE)

/-- The domain extraction of _prepare_data:

     sender = email.sender
     if '@' in sender:
         if '<' in sender:
             sender = sender.split('<')[1].split('>')[0]
         domain = sender.split('@')[1]
     else:
         domain = "unknown"

   The [1] index on split('@') raises IndexError when the bracketed
   part contains no '@'; that raise is modelled as none.  The [1]
   index on split('<') is safe there because '<' occurs in the string,
   and [0] on a split result is always safe.  All separators are
   single characters, so Python str.split is modelled by the
   structurally recursive single-character splitter splitOnChar over
   the character list of the string. -/
def splitOnChar (c : Char) : List Char → List (List Char)
  | [] => [[]]
  | a :: rest =>
    let r := splitOnChar c rest
    if a = c then [] :: r else (a :: r.headD []) :: r.tail

/-- The domain extraction of _prepare_data (see the comment above). -/
def extractDomain (sender : String) : Option String :=
  if sender.data.contains '@' then
    let s : List Char :=
      if sender.data.contains '<' then
        (splitOnChar '>' ((splitOnChar '<' sender.data)[1]?.getD [])).headD []
      else sender.data
    ((splitOnChar '@' s)[1]?).map String.mk
  else some "unknown"

/-- Append an analysis to the group of its domain, preserving the
insertion order of keys (Python dict semantics). -/
def addToGroups (gs : List (String × List EmailAnalysis)) (d : String)
    (a : EmailAnalysis) : List (String × List EmailAnalysis) :=
  match gs with
  | [] => [(d, [a])]
  | (k, v) :: rest =>
    if k = d then (k, v ++ [a]) :: rest else (k, v) :: addToGroups rest d a

/-- The sender_groups loop of _prepare_data over the deletable
analyses; the first IndexError in the domain extraction propagates and
aborts the whole digest preparation. -/
def groupBySenderDomain (l : List EmailAnalysis) :
    Option (List (String × List EmailAnalysis)) :=
  l.foldlM (fun gs a => (extractDomain a.sender).map fun d => addToGroups gs d a) []

/-- One entry of delete_groups in _prepare_data (samples are kept as
the analyses themselves; the source projects each to subject, date and
link, preserving count and order). -/
structure DeleteGroup where
  name : String
  count : Nat
  query : String
  samples : List EmailAnalysis
  deriving DecidableEq, Repr

/-- The delete_groups construction of _prepare_data: filter the
deletable categories, group by sender domain, sort the groups by size
descending (stable), keep the first three, drop every group with
fewer than two members, and emit the rendered group records.  none
models the uncaught IndexError from the domain extraction. -/
def delete_groups (analyses : List EmailAnalysis) : Option (List DeleteGroup) :=
  (groupBySenderDomain (analyses.filter isDeletable)).map fun gs =>
    (((sortDescBy (fun g => g.2.length) gs).take 3).filter
        fun g => 2 ≤ g.2.length).map
      fun g =>
        { name := "From " ++ g.1
          count := g.2.length
          query := "from:@" ++ g.1
          samples := g.2.take 3 }

/- ===================================================================
   Concrete inputs used by the claim instances and witnesses.
   =================================================================== -/

/-- Build a concrete analysis value with the fields the digest claims
observe. -/
def mkA (id sender : String) (cat : EmailCategory) (pr : Priority) :
    EmailAnalysis :=
  { message_id := id
    subject := "s"
    sender := sender
    date := "d"
    category := cat
    priority := pr
    summary := ""
    action_needed := none
    suggested_response := none
    calendar_event := none
    key_points := []
    sentiment := "neutral" }

/-- Ten priority-5 analyses followed by two priority-4 analyses (the
urgent-cap instance of the spec). -/
def exUrgentIn : List EmailAnalysis :=
  ((List.range 10).map fun i =>
    mkA ("m" ++ toString i) "u@x.com" EmailCategory.NEWSLETTER Priority.URGENT)
  ++ [mkA "h0" "u@x.com" EmailCategory.NEWSLETTER Priority.HIGH,
      mkA "h1" "u@x.com" EmailCategory.NEWSLETTER Priority.HIGH]

/-- The expected urgent selection for exUrgentIn: the first five
priority-5 analyses in their original order. -/
def exUrgentOut : List EmailAnalysis :=
  (List.range 5).map fun i =>
    mkA ("m" ++ toString i) "u@x.com" EmailCategory.NEWSLETTER Priority.URGENT

/-- Nine deletable analyses over the domains a.com (5), b.com (1) and
c.com (3) (the digest-grouping instance of the spec). -/
def exDomainsIn : List EmailAnalysis :=
  ((List.range 5).map fun i =>
    mkA ("a" ++ toString i) "u@a.com" EmailCategory.NEWSLETTER Priority.NONE)
  ++ [mkA "b0" "u@b.com" EmailCategory.PROMOTION Priority.NONE]
  ++ ((List.range 3).map fun i =>
    mkA ("c" ++ toString i) "u@c.com" EmailCategory.SOCIAL Priority.NONE)

/-- A sender string that contains both a commercial at and an angle
bracket while its bracketed portion contains no commercial at; the
domain extraction of _prepare_data raises IndexError on it. -/
def badSender : String := "alice@work <alice.example>"

/-- A provider response whose category string lies outside the eight
enum values (and whose priority is valid), used to exercise the
rejection path. -/
def invalidCategoryResponse : EmailAnalysisResponse :=
  { category := "bogus"
    priority := 3
    summary := "whatever" }

/- ===================================================================
   Helper lemmas.
   =================================================================== -/

theorem runChunks_ok (exec : List String → Except Unit Unit)
    (chunks : List (List String)) (h : ∀ c ∈ chunks, exec c = Except.ok ()) :
    runChunks exec chunks = (chunks, Except.ok ()) := by
  induction chunks with
  | nil => rfl
  | cons c rest ih =>
    have hc : exec c = Except.ok () := h c (by simp)
    simp [runChunks, hc, ih fun d hd => h d (by simp [hd])]

theorem runChunks_fail (exec : List String → Except Unit Unit)
    (pre : List (List String)) (c : List String) (post : List (List String))
    (hpre : ∀ d ∈ pre, exec d = Except.ok ())
    (hc : exec c = Except.error ()) :
    runChunks exec (pre ++ c :: post) = (pre ++ [c], Except.error ()) := by
  induction pre with
  | nil => simp [runChunks, hc]
  | cons d pre ih =>
    have hd : exec d = Except.ok () := hpre d (by simp)
    simp [runChunks, hd, ih fun e he => hpre e (by simp [he])]

theorem chunkedGo_flatten (n : Nat) (hn : 1 ≤ n) :
    ∀ (fuel : Nat) (l : List String), l.length ≤ fuel →
      (chunkedGo fuel l n).flatten = l := by
  intro fuel
  induction fuel with
  | zero =>
    intro l hl
    have : l = [] := List.eq_nil_of_length_eq_zero (Nat.le_zero.mp hl)
    subst this
    rfl
  | succ fuel ih =>
    intro l hl
    match l with
    | [] => rfl
    | a :: l2 =>
      have hd : ((a :: l2).drop n).length ≤ fuel := by
        simp only [List.length_drop, List.length_cons]
        simp at hl
        omega
      simp [chunkedGo, ih _ hd]

theorem chunkedGo_mem (n : Nat) (hn : 1 ≤ n) :
    ∀ (fuel : Nat) (l : List String), l.length ≤ fuel →
      ∀ c ∈ chunkedGo fuel l n, c.length ≤ n ∧ c ≠ [] := by
  intro fuel
  induction fuel with
  | zero =>
    intro l hl
    have : l = [] := List.eq_nil_of_length_eq_zero (Nat.le_zero.mp hl)
    subst this
    simp [chunkedGo]
  | succ fuel ih =>
    intro l hl c hc
    match l with
    | [] => simp [chunkedGo] at hc
    | a :: l2 =>
      simp only [chunkedGo, List.mem_cons] at hc
      rcases hc with hc | hc
      · subst hc
        constructor
        · simp
        · simp [List.take_eq_nil_iff]
          omega
      · have hd : ((a :: l2).drop n).length ≤ fuel := by
          simp only [List.length_drop, List.length_cons]
          simp at hl
          omega
        exact ih _ hd c hc

theorem chunked_flatten (l : List String) : (chunked l 500).flatten = l :=
  chunkedGo_flatten 500 (by omega) l.length l (Nat.le_refl _)

theorem chunked_mem (l : List String) :
    ∀ c ∈ chunked l 500, c.length ≤ 500 ∧ c ≠ [] :=
  chunkedGo_mem 500 (by omega) l.length l (Nat.le_refl _)

theorem listIdsGo_fail (rest : List (Except Unit (List String)))
    (limit : Option Nat) :
    ∀ (pre : List (List String)) (acc : List String) (ncalls : Nat),
      (∀ j, j ≤ pre.length →
        limitReached limit (acc ++ (pre.take j).flatten).length = false) →
      listIdsGo ((pre.map Except.ok) ++ Except.error () :: rest) limit acc ncalls
        = (Except.error (), ncalls + pre.length + 1) := by
  intro pre
  induction pre with
  | nil =>
    intro acc n h
    simp [listIdsGo]
  | cons p pre ih =>
    intro acc n h
    have h1 : limitReached limit (acc ++ p).length = false := by
      have := h 1 (by simp)
      simpa using this
    have h2 : ∀ j, j ≤ pre.length →
        limitReached limit ((acc ++ p) ++ (pre.take j).flatten).length = false := by
      intro j hj
      have := h (j + 1) (by simpa using Nat.succ_le_succ hj)
      simpa [List.append_assoc] using this
    show listIdsGo
        (Except.ok p :: (pre.map Except.ok ++ Except.error () :: rest)) limit acc n
      = (Except.error (), n + (p :: pre).length + 1)
    simp only [listIdsGo, h1, Bool.false_eq_true, if_false]
    rw [ih (acc ++ p) (n + 1) h2]
    have heq : n + 1 + pre.length + 1 = n + (p :: pre).length + 1 := by
      simp only [List.length_cons]
      omega
    rw [heq]

theorem cacheLookup_cachePut (store : List (String × String × Nat))
    (k v : String) (t : Nat) :
    cacheLookup (cachePut store k v t) k = some (v, t) := by
  induction store with
  | nil => simp [cachePut, cacheLookup]
  | cons e rest ih =>
    obtain ⟨k2, v2, t2⟩ := e
    by_cases h : k2 = k <;> simp [cachePut, cacheLookup, h, ih]

/-- Certification that the fallback analysis record equals what the
EmailAnalysis constructor produces from the literal fallback response
of the except branch. -/
theorem mkEmailAnalysis_fallback (message_id : String)
    (headers : List (String × String)) :
    mkEmailAnalysis message_id headers fallbackResponse
      = some (fallbackAnalysis message_id headers) := rfl

theorem urgentLoop_eq :
    ∀ (l : List EmailAnalysis) (acc : List EmailAnalysis), acc.length < 5 →
      urgentLoop l acc = acc ++ (l.filter isUrgent).take (5 - acc.length) := by
  intro l
  induction l with
  | nil => intro acc h; simp [urgentLoop]
  | cons a rest ih =>
    intro acc h
    by_cases hu : isUrgent a
    · by_cases h5 : 5 ≤ (acc ++ [a]).length
      · have h4 : acc.length = 4 := by
          simp at h5
          omega
        have ht : 5 - acc.length = 1 := by omega
        simp [urgentLoop, hu, List.filter_cons, ht, h4]
      · have hlt : (acc ++ [a]).length < 5 := by omega
        have ht : 5 - acc.length = (5 - (acc ++ [a]).length) + 1 := by
          simp
          omega
        simp only [urgentLoop, hu, if_true, h5, if_false]
        rw [ih _ hlt, List.filter_cons, if_pos hu, ht, List.take_succ_cons,
          List.append_assoc, List.singleton_append]
    · simp [urgentLoop, hu, ih _ h, List.filter_cons]

theorem mem_insertDescBy (key : α → Nat) (a x : α) :
    ∀ l, x ∈ insertDescBy key a l ↔ x = a ∨ x ∈ l := by
  intro l
  induction l with
  | nil => simp [insertDescBy]
  | cons b l ih =>
    by_cases h : key b ≤ key a
    · simp [insertDescBy, h]
    · simp [insertDescBy, h, ih]
      tauto

theorem pairwise_insertDescBy (key : α → Nat) (a : α) :
    ∀ l, l.Pairwise (fun x y => key y ≤ key x) →
      (insertDescBy key a l).Pairwise (fun x y => key y ≤ key x) := by
  intro l
  induction l with
  | nil => intro _; simp [insertDescBy]
  | cons b l ih =>
    intro hp
    rcases List.pairwise_cons.mp hp with ⟨hb, hl⟩
    by_cases h : key b ≤ key a
    · rw [insertDescBy, if_pos h]
      refine List.pairwise_cons.mpr ⟨?_, hp⟩
      intro x hx
      rcases List.mem_cons.mp hx with hx | hx
      · subst hx; exact h
      · exact Nat.le_trans (hb x hx) h
    · rw [insertDescBy, if_neg h]
      refine List.pairwise_cons.mpr ⟨?_, ih hl⟩
      intro x hx
      rcases (mem_insertDescBy key a x l).mp hx with hx | hx
      · subst hx; omega
      · exact hb x hx

theorem sortDescBy_pairwise (key : α → Nat) (l : List α) :
    (sortDescBy key l).Pairwise (fun x y => key y ≤ key x) := by
  induction l with
  | nil => simp [sortDescBy]
  | cons a l ih => exact pairwise_insertDescBy key a _ ih

theorem filter_insertDescBy (key : α → Nat) (p : Nat) (a : α) :
    ∀ l, (insertDescBy key a l).filter (fun x => decide (key x = p))
      = if key a = p then a :: l.filter (fun x => decide (key x = p))
        else l.filter (fun x => decide (key x = p)) := by
  intro l
  induction l with
  | nil => by_cases h : key a = p <;> simp [insertDescBy, h]
  | cons b l ih =>
    rw [insertDescBy]
    by_cases h : key b ≤ key a
    · rw [if_pos h]
      by_cases hp : key a = p <;> simp [List.filter_cons, hp]
    · rw [if_neg h]
      by_cases hb : key b = p
      · have hp : ¬ (key a = p) := by omega
        simp [List.filter_cons, hb, hp, ih]
      · by_cases hp : key a = p <;> simp [List.filter_cons, hb, hp, ih]

theorem sortDescBy_filter_key (key : α → Nat) (p : Nat) (l : List α) :
    (sortDescBy key l).filter (fun x => decide (key x = p))
      = l.filter (fun x => decide (key x = p)) := by
  induction l with
  | nil => simp [sortDescBy]
  | cons a l ih =>
    rw [sortDescBy, filter_insertDescBy key p a _, List.filter_cons]
    by_cases h : key a = p <;> simp [h, ih]

/- ===================================================================
   Claims.
   =================================================================== -/

/-- C1 (amended): for every identifier list, calling the bulk delete
with confirmed = false issues zero remote mutation calls and returns
normally with no outcome value at all (the source prints Aborted and
returns None); the abort path raises no exception.  The outcome record
of the original claim (attempted, succeeded, failure entry) is not
produced anywhere: see the counterexample. -/
theorem claim_C1 :
    ∀ (exec : List String → Except Unit Unit) (ids : List String),
      delete_by_query exec ids false = ([], Except.ok none) := by
  intro exec ids
  by_cases h : ids.isEmpty <;> simp [delete_by_query, h]

/-- C1 counterexample: at the concrete input of one identifier with an
always-succeeding remote endpoint and confirmed = false, the call does
not return an outcome with attempted = 1, succeeded = 0 and a single
failure record, because it returns no outcome at all. -/
theorem claim_C1_counterexample :
    ¬ ∃ o : SpecBatchOutcome,
        (delete_by_query execOk ["a"] false).2 = Except.ok (some o)
          ∧ o.attempted = 1 ∧ o.succeeded = 0 ∧ o.failures.length = 1 := by
  rintro ⟨o, ho, -⟩
  simp [delete_by_query, execOk] at ho

/-- C2: for every confirmed delete whose remote batch calls all
succeed, the issued calls are exactly the consecutive chunks of at
most 500 identifiers, in order, each chunk nonempty and of size at
most 500, their concatenation the original list; and on exactly 1001
identifiers exactly 3 batch calls are issued with sizes 500, 500
and 1. -/
theorem claim_C2 :
    ∀ (exec : List String → Except Unit Unit) (ids : List String),
      (∀ c, exec c = Except.ok ()) →
      (delete_by_query exec ids true).1 = chunked ids 500
      ∧ (∀ c ∈ chunked ids 500, c.length ≤ 500 ∧ c ≠ [])
      ∧ (chunked ids 500).flatten = ids
      ∧ (delete_by_query exec (List.replicate 1001 "m") true).1.map List.length
          = [500, 500, 1] := by
  intro exec ids hok
  have hcalls : ∀ l : List String, (delete_by_query exec l true).1 = chunked l 500 := by
    intro l
    by_cases h : l.isEmpty
    · have : l = [] := by simpa [List.isEmpty_iff] using h
      subst this
      simp [delete_by_query, chunked, chunkedGo]
    · simp [delete_by_query, h, runChunks_ok exec _ fun c _ => hok c]
  refine ⟨hcalls ids, chunked_mem ids, chunked_flatten ids, ?_⟩
  rw [hcalls (List.replicate 1001 "m")]
  rfl

/-- C2 witness: the theorem applied at a two-identifier list and at
the 1001-identifier boundary instance, with the always-succeeding
endpoint. -/
theorem claim_C2_witness :
    (delete_by_query execOk ["a", "b"] true).1 = chunked ["a", "b"] 500
    ∧ (delete_by_query execOk (List.replicate 1001 "m") true).1.map List.length
        = [500, 500, 1] := by
  have h := claim_C2 execOk ["a", "b"] fun c => rfl
  exact ⟨h.1, h.2.2.2⟩

/-- C3 (amended): during a confirmed delete, a failing remote batch
call raises an uncaught exception: the calls issued are exactly the
successful prefix plus the failing chunk, the remaining chunks are
never attempted, and no per-identifier failure record is produced (the
call ends in the propagated exception).  The original claim
(failure recorded per identifier, processing continues) fails: see the
counterexample. -/
theorem claim_C3 :
    ∀ (exec : List String → Except Unit Unit) (ids : List String)
      (pre : List (List String)) (c : List String) (post : List (List String)),
      chunked ids 500 = pre ++ c :: post →
      (∀ d ∈ pre, exec d = Except.ok ()) →
      exec c = Except.error () →
      (delete_by_query exec ids true).1 = pre ++ [c]
      ∧ (delete_by_query exec ids true).2 = Except.error () := by
  intro exec ids pre c post hch hpre hc
  have hne : ids.isEmpty = false := by
    rcases h : ids.isEmpty with _ | _
    · rfl
    · exfalso
      have : ids = [] := by simpa [List.isEmpty_iff] using h
      subst this
      simp [chunked, chunkedGo] at hch
  have hrun := runChunks_fail exec pre c post hpre hc
  constructor
  · simp [delete_by_query, hne, hch, hrun]
  · simp [delete_by_query, hne, hch, hrun, Except.map]

/-- C3 counterexample: with 501 identifiers (two chunks) and a remote
endpoint that fails every batch call, only one of the two chunks is
ever attempted and the call ends in an exception, so a failed chunk
does abort the rest, contradicting the claim that every later chunk is
still attempted. -/
theorem claim_C3_counterexample :
    (delete_by_query execFail (List.replicate 501 "m") true).1.length = 1
    ∧ (chunked (List.replicate 501 "m") 500).length = 2
    ∧ (delete_by_query execFail (List.replicate 501 "m") true).2
        = Except.error () := by
  exact ⟨rfl, rfl, rfl⟩

/-- C3 witness: the amended theorem applied to the concrete 501-id
input whose first chunk fails, showing the issued calls stop at the
failing chunk. -/
theorem claim_C3_witness :
    (delete_by_query execFail (List.replicate 501 "m") true).1
      = [List.replicate 500 "m"]
    ∧ (delete_by_query execFail (List.replicate 501 "m") true).2
        = Except.error () := by
  exact claim_C3 execFail (List.replicate 501 "m") [] (List.replicate 500 "m")
    [["m"]] rfl (by simp) rfl

/-- C4: whenever the external scoring call fails in any way (transport
error, timeout or malformed response are the error branch of the
provider; a schema-invalid response is rejected by validation inside
aiCreate), analyze_email returns the deterministic fallback analysis:
category FYI_REVIEW, priority value 1, summary "Unable to analyze
email", empty key points, no action and no calendar data; the result
is a plain analysis value, so the failure never reaches the caller. -/
theorem claim_C4 :
    ∀ (message_id : String) (headers : List (String × String))
      (provider : Except Unit EmailAnalysisResponse),
      aiCreate provider = Except.error () →
      analyze_email message_id headers provider = fallbackAnalysis message_id headers
      ∧ (analyze_email message_id headers provider).category = EmailCategory.FYI_REVIEW
      ∧ (analyze_email message_id headers provider).priority.value = 1
      ∧ (analyze_email message_id headers provider).summary = "Unable to analyze email"
      ∧ (analyze_email message_id headers provider).key_points = []
      ∧ (analyze_email message_id headers provider).action_needed = none
      ∧ (analyze_email message_id headers provider).calendar_event = none := by
  intro message_id headers provider h
  simp [analyze_email, h, fallbackAnalysis, Priority.value]

/-- C4 witness: the theorem applied to a failing provider call. -/
theorem claim_C4_witness :
    analyze_email "m1" [] (Except.error ()) = fallbackAnalysis "m1" []
    ∧ (analyze_email "m1" [] (Except.error ())).priority.value = 1 := by
  have h := claim_C4 "m1" [] (Except.error ()) rfl
  exact ⟨h.1, h.2.2.1⟩

/-- C5: every analysis produced by analyze_email carries a priority
value in 1..5 and a category among the eight enumerated values, the
fallback path included; and any provider response whose category
string lies outside the enum, or whose priority lies outside 1..5, is
rejected and replaced by the fallback analysis rather than coerced. -/
theorem claim_C5 :
    ∀ (message_id : String) (headers : List (String × String))
      (provider : Except Unit EmailAnalysisResponse),
      (1 ≤ (analyze_email message_id headers provider).priority.value
        ∧ (analyze_email message_id headers provider).priority.value ≤ 5)
      ∧ (analyze_email message_id headers provider).category ∈
          [EmailCategory.ACTION_REQUIRED, EmailCategory.FYI_REVIEW,
           EmailCategory.CALENDAR_EVENT, EmailCategory.NEWSLETTER,
           EmailCategory.PROMOTION, EmailCategory.SOCIAL,
           EmailCategory.AUTO_DELETE, EmailCategory.IMPORTANT]
      ∧ (∀ r : EmailAnalysisResponse,
          EmailCategory.ofString r.category = none ∨ r.priority < 1 ∨ 5 < r.priority →
          analyze_email message_id headers (Except.ok r)
            = fallbackAnalysis message_id headers) := by
  intro message_id headers provider
  refine ⟨?_, ?_, ?_⟩
  · rcases h : (analyze_email message_id headers provider).priority <;>
      simp [Priority.value]
  · rcases h : (analyze_email message_id headers provider).category <;> simp
  · intro r hr
    rcases hr with hcat | hpr | hpr
    · by_cases hv : responseValid r
      · simp [analyze_email, aiCreate, hv, mkEmailAnalysis, hcat]
      · simp [analyze_email, aiCreate, hv]
    · have hv : responseValid r = false := by
        simp [responseValid]
        omega
      simp [analyze_email, aiCreate, hv]
    · have hv : responseValid r = false := by
        simp [responseValid]
        omega
      simp [analyze_email, aiCreate, hv]

/-- C5 witness: the theorem applied to a response with an invalid
category string, showing the rejection path yields the fallback, plus
the priority lower bound at that input. -/
theorem claim_C5_witness :
    analyze_email "m2" [] (Except.ok invalidCategoryResponse)
      = fallbackAnalysis "m2" []
    ∧ 1 ≤ (analyze_email "m2" [] (Except.ok invalidCategoryResponse)).priority.value := by
  have h := claim_C5 "m2" [] (Except.ok invalidCategoryResponse)
  exact ⟨h.2.2 invalidCategoryResponse (Or.inl rfl), h.1.1⟩

/-- C6: the urgent items are exactly the first five elements, in
order, of the stable descending-by-priority sort of the analyses
filtered by the urgency test (priority at least 4 or category
ACTION_REQUIRED), hence at most five of them; the sort is descending
on priority and analyses of equal priority keep their original
relative order; and on ten priority-5 analyses followed by two
priority-4 analyses the selection is exactly the first five
priority-5 analyses in original order. -/
theorem claim_C6 :
    ∀ analyses : List EmailAnalysis,
      urgent_items analyses
        = ((sortDescBy (fun a => a.priority.value) analyses).filter isUrgent).take 5
      ∧ (urgent_items analyses).length ≤ 5
      ∧ (sortDescBy (fun a => a.priority.value) analyses).Pairwise
          (fun x y => y.priority.value ≤ x.priority.value)
      ∧ (∀ p : Nat,
          (sortDescBy (fun a => a.priority.value) analyses).filter
              (fun a => decide (a.priority.value = p))
            = analyses.filter (fun a => decide (a.priority.value = p)))
      ∧ urgent_items exUrgentIn = exUrgentOut
      ∧ (∀ a ∈ urgent_items exUrgentIn, a.priority = Priority.URGENT) := by
  intro analyses
  have hmain : urgent_items analyses
      = ((sortDescBy (fun a => a.priority.value) analyses).filter isUrgent).take 5 := by
    rw [urgent_items, urgentLoop_eq _ [] (by simp)]
    simp
  refine ⟨hmain, ?_, sortDescBy_pairwise _ _,
    fun p => sortDescBy_filter_key _ p _, by decide, by decide⟩
  rw [hmain]
  exact List.length_take_le 5 _

/-- C6 witness: the theorem applied at the concrete twelve-analysis
input, showing the selection equation and the stability equation for
priority 5 there. -/
theorem claim_C6_witness :
    urgent_items exUrgentIn
      = ((sortDescBy (fun a => a.priority.value) exUrgentIn).filter isUrgent).take 5
    ∧ (sortDescBy (fun a => a.priority.value) exUrgentIn).filter
          (fun a => decide (a.priority.value = 5))
        = exUrgentIn.filter (fun a => decide (a.priority.value = 5)) := by
  have h := claim_C6 exUrgentIn
  exact ⟨h.1, h.2.2.2.1 5⟩

/-- C7: the deletable set is exactly the analyses whose category is
NEWSLETTER, PROMOTION, SOCIAL or AUTO_DELETE; when digest preparation
returns delete groups, there are at most three of them, ordered
descending by group size, every group has at least two members and
carries the name From d and the re-issuable query string built from
the group domain d; a sender with no commercial at is grouped under
the literal domain unknown; and the concrete instance with domain
counts a.com 5, b.com 1, c.com 3 yields exactly the a.com group then
the c.com group, excluding b.com. -/
theorem claim_C7 :
    ∀ analyses : List EmailAnalysis,
      (∀ a : EmailAnalysis, a ∈ analyses.filter isDeletable ↔
          a ∈ analyses ∧ (a.category = EmailCategory.NEWSLETTER
            ∨ a.category = EmailCategory.PROMOTION
            ∨ a.category = EmailCategory.SOCIAL
            ∨ a.category = EmailCategory.AUTO_DELETE))
      ∧ (∀ gs : List DeleteGroup, delete_groups analyses = some gs →
          gs.length ≤ 3
          ∧ gs.Pairwise (fun g1 g2 => g2.count ≤ g1.count)
          ∧ (∀ g ∈ gs, 2 ≤ g.count
              ∧ ∃ d : String, g.name = "From " ++ d ∧ g.query = "from:@" ++ d))
      ∧ (∀ s : String, s.data.contains '@' = false → extractDomain s = some "unknown")
      ∧ (delete_groups exDomainsIn).map (fun gs => gs.map fun g => (g.name, g.count, g.query))
          = some [("From a.com", 5, "from:@a.com"), ("From c.com", 3, "from:@c.com")] := by
  intro analyses
  refine ⟨?_, ?_, ?_, by decide⟩
  · intro a
    simp [List.mem_filter, isDeletable]
    tauto
  · intro gs hgs
    rcases h0 : groupBySenderDomain (analyses.filter isDeletable) with _ | gs0
    · simp [delete_groups, h0] at hgs
    · rw [delete_groups, h0] at hgs
      simp only [Option.map_some, Option.map, Option.some.injEq] at hgs
      subst hgs
      refine ⟨?_, ?_, ?_⟩
      · have h1 := List.length_filter_le
          (fun g : String × List EmailAnalysis => decide (2 ≤ g.2.length))
          ((sortDescBy (fun g => g.2.length) gs0).take 3)
        have h2 := List.length_take_le 3 (sortDescBy (fun g => g.2.length) gs0)
        simp only [List.length_map]
        omega
      · have hp0 := sortDescBy_pairwise (fun g : String × List EmailAnalysis => g.2.length) gs0
        have hp1 := hp0.sublist (List.take_sublist 3 _)
        have hp2 : List.Pairwise
            (fun x y : String × List EmailAnalysis => y.2.length ≤ x.2.length)
            (((sortDescBy (fun g : String × List EmailAnalysis => g.2.length) gs0).take 3).filter
              fun g => decide (2 ≤ g.2.length)) :=
          hp1.sublist (List.filter_sublist _)
        exact List.pairwise_map.mpr hp2
      · intro g hg
        rcases List.mem_map.mp hg with ⟨g0, hg0, hgr⟩
        rcases List.mem_filter.mp hg0 with ⟨-, hq⟩
        subst hgr
        exact ⟨by simpa using hq, g0.1, rfl, rfl⟩
  · intro s h
    rw [extractDomain, if_neg (by simpa using h)]

/-- C7 witness: the theorem applied at the concrete nine-analysis
input and at a sender without a commercial at. -/
theorem claim_C7_witness :
    ((delete_groups exDomainsIn).getD []).length ≤ 3
    ∧ extractDomain "mailer-daemon" = some "unknown" := by
  have h := claim_C7 exDomainsIn
  exact ⟨(h.2.1 ((delete_groups exDomainsIn).getD []) (by rfl)).1,
    h.2.2.1 "mailer-daemon" (by rfl)⟩

/-- C8 (amended): a put followed by a get returns the payload
unchanged whenever the elapsed time is strictly below the TTL; as soon
as the age reaches or exceeds the TTL (the source freshness test is
the strict age < ttl), the get returns absent while the underlying
store still contains the stale entry, which is never deleted eagerly.
The original claim placed the boundary at TTL greater than or equal to
the elapsed time: at age exactly equal to the TTL the entry is already
treated as stale, see the counterexample. -/
theorem claim_C8 :
    ∀ (store : List (String × String × Nat)) (k v : String) (t0 t1 ttl : Nat),
      (t1 - t0 < ttl → cacheGet (cachePut store k v t0) k t1 ttl = some v)
      ∧ (ttl ≤ t1 - t0 →
          cacheGet (cachePut store k v t0) k t1 ttl = none
          ∧ cacheLookup (cachePut store k v t0) k = some (v, t0)) := by
  intro store k v t0 t1 ttl
  have hl := cacheLookup_cachePut store k v t0
  constructor
  · intro h
    simp [cacheGet, hl, h]
  · intro h
    refine ⟨?_, hl⟩
    simp [cacheGet, hl]
    omega

/-- C8 counterexample: with a put at time 0 and a get at time 5 under
TTL 5 the TTL equals the elapsed time, so the original claim promises
the payload, but the strict freshness test of the source already
treats the entry as stale and returns absent, while the entry is still
stored. -/
theorem claim_C8_counterexample :
    cacheGet (cachePut [] "k" "v" 0) "k" 5 5 ≠ some "v"
    ∧ 5 - 0 ≤ 5
    ∧ cacheLookup (cachePut [] "k" "v" 0) "k" = some ("v", 0) := by
  exact ⟨by decide, by decide, by decide⟩

/-- C8 witness: the amended theorem applied at elapsed time 3 under
TTL 5 (fresh) and at elapsed time 9 under TTL 5 (stale). -/
theorem claim_C8_witness :
    cacheGet (cachePut [] "k" "v" 0) "k" 3 5 = some "v"
    ∧ cacheGet (cachePut [] "k" "v" 0) "k" 9 5 = none := by
  exact ⟨(claim_C8 [] "k" "v" 0 3 5).1 (by decide),
    ((claim_C8 [] "k" "v" 0 9 5).2 (by decide)).1⟩

/-- C9 (amended): in list_message_ids a transport failure on any page
aborts the call at that page: every earlier page is requested exactly
once, the failing page once, later pages never, no retry is issued and
the identifiers already collected are discarded because the exception
propagates to the caller carrying no partial result.  In get_emails,
however, the transport failure of the list call is caught inside the
function and an empty list is returned: the failure is not surfaced to
the caller, contrary to the original claim, see the counterexample. -/
theorem claim_C9 :
    ∀ (pre : List (List String)) (rest : List (Except Unit (List String)))
      (limit : Option Nat),
      (∀ j, j ≤ pre.length →
        limitReached limit ((pre.take j).flatten).length = false) →
      list_message_ids ((pre.map Except.ok) ++ Except.error () :: rest) limit
        = (Except.error (), pre.length + 1)
      ∧ (∀ g : String → Except Unit String,
          get_emailsE (Except.error ()) g = Except.ok []) := by
  intro pre rest limit h
  constructor
  · have hgo := listIdsGo_fail rest limit pre [] 0 (by simpa using h)
    simpa [list_message_ids] using hgo
  · intro g
    rfl

/-- C9 counterexample: with a failing list transport, get_emails
returns the ordinary value of an empty message list instead of
surfacing an error to its caller. -/
theorem claim_C9_counterexample :
    get_emailsE (Except.error ()) failGet = Except.ok []
    ∧ Except.ok ([] : List String) ≠ (Except.error () : Except Unit (List String)) := by
  exact ⟨rfl, by simp⟩

/-- C9 witness: the amended theorem applied to one good page followed
by a failing page and a further page: the call errors after exactly
two list requests and the collected identifiers of the good page are
discarded. -/
theorem claim_C9_witness :
    list_message_ids [Except.ok ["a"], Except.error (), Except.ok ["b"]] none
      = (Except.error (), 2)
    ∧ get_emailsE (Except.error ()) failGet = Except.ok [] := by
  have h := claim_C9 [["a"]] [Except.ok ["b"]] none (by intro j hj; rfl)
  exact ⟨h.1, h.2 failGet⟩

/-- C10: digest preparation is not total on sender strings: on a
concrete deletable analysis whose sender contains both a commercial at
and an opening angle bracket while the bracketed portion contains no
commercial at, the domain extraction hits the out-of-range index (an
IndexError, modelled as none) and delete-group preparation returns no
digest data; whereas every sender without a commercial at is grouped
under the literal domain unknown. -/
theorem claim_C10 :
    delete_groups [mkA "x" badSender EmailCategory.NEWSLETTER Priority.NONE] = none
    ∧ extractDomain badSender = none
    ∧ badSender.data.contains '@' = true
    ∧ badSender.data.contains '<' = true
    ∧ (∀ s : String, s.data.contains '@' = false → extractDomain s = some "unknown") := by
  refine ⟨rfl, rfl, rfl, rfl, ?_⟩
  intro s h
  rw [extractDomain, if_neg (by simpa using h)]

/-- C10 witness: the unknown-domain branch of the theorem applied to a
concrete sender without a commercial at. -/
theorem claim_C10_witness : extractDomain "postmaster" = some "unknown" :=
  claim_C10.2.2.2.2 "postmaster" rfl

end Inboxy
